import Mathlib

/-!
Verification of the task-list domain core (`Task`, `TaskManager`) from
`src/script.js`, shallowly embedded in Lean 4.

Modelling conventions:
* Wall-clock instants are `Int` millisecond timestamps (JavaScript `Date`
  values compare by their millisecond timestamp).
* JavaScript `String.prototype.trim` is embedded as `jsTrim`, removing the
  ECMAScript WhiteSpace / LineTerminator characters from both ends.
* The JavaScript `deadline` argument of `addTask` / the `Task` constructor
  can be `null`, a string from the date input, or a number; its JavaScript
  truthiness test (`deadline ? new Date(deadline) : null`) is modelled by
  `JSDeadline.truthy`.  Parsing a date string into a timestamp is a
  browser-supplied operation; it enters the model as an explicit `parse`
  function parameter.
* The floating-point division `timeDiff / (1000*60*60)` of `isDueSoon` is
  modelled with exact rational arithmetic (`ℚ`); at the comparisons the
  source performs (`> 0`, `<= 24`) the double rounding error is far below
  the distance to the boundary for integral millisecond inputs, so the
  rational model agrees with the JavaScript semantics on all reachable
  values.
* Exceptions (`throw new Error(...)`) are modelled with `Except`.
-/

namespace Todo

/-- Is `c` one of the characters ECMAScript `trim` removes: WhiteSpace
(TAB, VT, FF, SP, NBSP, ZWNBSP and every Unicode Zs code point, i.e.
U+1680, U+2000-U+200A, U+202F, U+205F, U+3000) or LineTerminator
(LF, CR, LS, PS). -/
def jsWhitespace (c : Char) : Bool :=
  c = ' ' || c = '\t' || c = '\n' || c = '\r' ||
  c = '\x0b' || c = '\x0c' || c = '\u00A0' || c = '\uFEFF' ||
  c = '\u1680' || ('\u2000' ≤ c && c ≤ '\u200A') ||
  c = '\u2028' || c = '\u2029' || c = '\u202F' ||
  c = '\u205F' || c = '\u3000'

/-- Trim a character list on both ends. -/
def trimChars (l : List Char) : List Char :=
  ((l.dropWhile jsWhitespace).reverse.dropWhile jsWhitespace).reverse

/-- JavaScript `text.trim()`. -/
def jsTrim (s : String) : String :=
  ⟨trimChars s.data⟩

/-- One to-do item, mirroring `class Task` (src/script.js:1-47).
`createdAt` is the construction instant, `deadline` is `none` for the
JavaScript `null`. -/
structure Task where
  id : Nat
  text : String
  completed : Bool
  createdAt : Int
  deadline : Option Int
deriving Repr, DecidableEq

/-- `Task.toggle` (src/script.js:10-12): flips `completed`. -/
def Task.toggle (t : Task) : Task :=
  { t with completed := !t.completed }

/-- `Task.isOverdue` (src/script.js:14-17): false when there is no deadline
or the task is completed, else `new Date() > this.deadline`. -/
def Task.isOverdue (t : Task) (now : Int) : Bool :=
  match t.deadline with
  | none => false
  | some d => if t.completed then false else decide (d < now)

/-- `Task.isDueSoon` (src/script.js:19-25): false when there is no deadline
or the task is completed, else `hoursDiff > 0 && hoursDiff <= 24` where
`hoursDiff = (deadline - now) / (1000*60*60)`. -/
def Task.isDueSoon (t : Task) (now : Int) : Bool :=
  match t.deadline with
  | none => false
  | some d =>
    if t.completed then false
    else
      let timeDiff : Int := d - now
      let hoursDiff : ℚ := (timeDiff : ℚ) / (1000 * 60 * 60)
      decide (0 < hoursDiff ∧ hoursDiff ≤ 24)

/-- The JavaScript value passed as the optional `deadline` argument:
`null` (the default), the string of the date input, or a number. -/
inductive JSDeadline where
  | null : JSDeadline
  | str : String → JSDeadline
  | num : Int → JSDeadline
deriving Repr, DecidableEq

/-- JavaScript truthiness of a `deadline` argument: `null`, `""` and `0`
are falsy, everything else truthy. -/
def JSDeadline.truthy : JSDeadline → Bool
  | .null => false
  | .str s => !s.isEmpty
  | .num n => n != 0

/-- The timestamp `new Date(deadline)` denotes, given the browser's date
string parser `parse`.  (Only ever applied to truthy arguments, as in
src/script.js:7.) -/
def JSDeadline.toTimestamp (parse : String → Int) : JSDeadline → Int
  | .null => 0
  | .str s => parse s
  | .num n => n

/-- The `Task` constructor (src/script.js:2-8): stores the text as given,
`completed = false`, `createdAt = now`, and
`deadline ? new Date(deadline) : null`. -/
def Task.make (parse : String → Int) (id : Nat) (text : String) (now : Int)
    (dl : JSDeadline) : Task :=
  { id := id, text := text, completed := false, createdAt := now,
    deadline := if dl.truthy then some (dl.toTimestamp parse) else none }

/-- The manager state, mirroring `class TaskManager` (src/script.js:50-94). -/
structure TaskManager where
  tasks : List Task
  nextId : Nat
deriving Repr, DecidableEq

/-- The `TaskManager` constructor (src/script.js:51-54): empty list,
`nextId = 1`. -/
def TaskManager.init : TaskManager :=
  { tasks := [], nextId := 1 }

/-- The single error kind of the core: `throw new Error('Task text cannot
be empty')` in `addTask`, called ValidationError by the spec. -/
inductive AddError where
  | validationError : AddError
deriving Repr, DecidableEq

/-- `TaskManager.addTask` (src/script.js:56-64): throws when the trimmed
text is empty; otherwise constructs `new Task(this.nextId++, text.trim(),
deadline)`, appends it and returns it. -/
def TaskManager.addTask (m : TaskManager) (parse : String → Int) (now : Int)
    (text : String) (dl : JSDeadline) : Except AddError (Task × TaskManager) :=
  if jsTrim text = "" then
    .error .validationError
  else
    let task := Task.make parse m.nextId (jsTrim text) now dl
    .ok (task, { tasks := m.tasks ++ [task], nextId := m.nextId + 1 })

/-- `TaskManager.deleteTask` (src/script.js:66-68):
`this.tasks = this.tasks.filter(task => task.id !== id)`. -/
def TaskManager.deleteTask (m : TaskManager) (id : Nat) : TaskManager :=
  { m with tasks := m.tasks.filter (fun t => t.id != id) }

/-- Helper for `toggleTask`: `this.tasks.find(...)` followed by the in-place
`task.toggle()` mutates exactly the first task with the given id. -/
def toggleFirst (id : Nat) : List Task → List Task
  | [] => []
  | t :: ts => if t.id = id then t.toggle :: ts else t :: toggleFirst id ts

/-- `TaskManager.toggleTask` (src/script.js:70-75): toggles the first task
with the given id, no-op when none exists. -/
def TaskManager.toggleTask (m : TaskManager) (id : Nat) : TaskManager :=
  { m with tasks := toggleFirst id m.tasks }

/-- `TaskManager.clearCompleted` (src/script.js:77-79):
`this.tasks = this.tasks.filter(task => !task.completed)`. -/
def TaskManager.clearCompleted (m : TaskManager) : TaskManager :=
  { m with tasks := m.tasks.filter (fun t => !t.completed) }

/-- Result record of `getStats`. -/
structure Stats where
  total : Nat
  completed : Nat
  remaining : Nat
  overdue : Nat
  dueSoon : Nat
deriving Repr, DecidableEq

/-- `TaskManager.getStats` (src/script.js:81-89), with the wall clock read
passed in as `now`. -/
def TaskManager.getStats (m : TaskManager) (now : Int) : Stats :=
  let total := m.tasks.length
  let completed := (m.tasks.filter (fun t => t.completed)).length
  let remaining := total - completed
  let overdue := (m.tasks.filter (fun t => t.isOverdue now)).length
  let dueSoon := (m.tasks.filter (fun t => t.isDueSoon now)).length
  { total := total, completed := completed, remaining := remaining,
    overdue := overdue, dueSoon := dueSoon }

/-- `TaskManager.getAllTasks` (src/script.js:91-93): `[...this.tasks]`, a
fresh array with the same elements in the same order. -/
def TaskManager.getAllTasks (m : TaskManager) : List Task :=
  m.tasks

/-- A client-visible mutating operation on the manager, used to quantify
over arbitrary interleavings of calls. -/
inductive Op where
  | add : Int → String → JSDeadline → Op
  | delete : Nat → Op
  | toggle : Nat → Op
  | clear : Op
deriving Repr, DecidableEq

/-- Apply one operation; a failed `addTask` (caught by the view layer)
leaves the manager unchanged. -/
def applyOp (parse : String → Int) (m : TaskManager) : Op → TaskManager
  | .add now text dl =>
    match m.addTask parse now text dl with
    | .ok (_, m') => m'
    | .error _ => m
  | .delete id => m.deleteTask id
  | .toggle id => m.toggleTask id
  | .clear => m.clearCompleted

/-- Run a sequence of operations from the freshly constructed manager. -/
def runOps (parse : String → Int) (ops : List Op) : TaskManager :=
  ops.foldl (applyOp parse) TaskManager.init

/-- Number of `add` operations in a sequence that succeed (success depends
only on the text being non-blank after trimming). -/
def successfulAdds : List Op → Nat
  | [] => 0
  | .add _ text _ :: rest =>
    (if jsTrim text = "" then 0 else 1) + successfulAdds rest
  | _ :: rest => successfulAdds rest

/-- The two `hoursDiff` comparisons of `isDueSoon`, reduced to integer
millisecond comparisons (24 h = 86400000 ms). -/
theorem hoursDiff_bounds (x : Int) :
    (0 < (x : ℚ) / (1000 * 60 * 60) ∧ (x : ℚ) / (1000 * 60 * 60) ≤ 24) ↔
      (0 < x ∧ x ≤ 86400000) := by
  have h1 : (0 : ℚ) < 1000 * 60 * 60 := by norm_num
  rw [lt_div_iff₀ h1, div_le_iff₀ h1, zero_mul]
  constructor
  · rintro ⟨ha, hb⟩
    refine ⟨by exact_mod_cast ha, ?_⟩
    have : (x : ℚ) ≤ 86400000 := by linarith
    exact_mod_cast this
  · rintro ⟨ha, hb⟩
    refine ⟨by exact_mod_cast ha, ?_⟩
    have : (x : ℚ) ≤ 86400000 := by exact_mod_cast hb
    linarith

/-- Executable characterization of `isDueSoon`: the rational `hoursDiff`
test is equivalent to an integer millisecond test. -/
theorem Task.isDueSoon_int (t : Task) (now : Int) :
    t.isDueSoon now =
      match t.deadline with
      | none => false
      | some d =>
        if t.completed then false
        else decide (0 < d - now ∧ d - now ≤ 86400000) := by
  unfold Task.isDueSoon
  cases t.deadline with
  | none => rfl
  | some d =>
    by_cases hc : t.completed
    · simp [hc]
    · simp only [hc, Bool.false_eq_true, if_false]
      rw [decide_eq_decide]
      have h := hoursDiff_bounds (d - now)
      push_cast at h ⊢
      exact h

example : jsTrim "  hi  " = "hi" := by decide

example : jsTrim "   " = "" := by decide

example : jsTrim "\u3000" = "" := by decide

example : jsTrim " \u2003\u200A " = "" := by decide

example : jsTrim "\u1680 a\u205F" = "a" := by decide

/-- Claim C1: `addTask` on text that is empty after trimming fails with the
validation error and, as an operation on the manager, leaves the state
(tasks and `nextId`) exactly as it was. -/
theorem addTask_blank_validation (parse : String → Int) (m : TaskManager)
    (now : Int) (text : String) (dl : JSDeadline) (h : jsTrim text = "") :
    m.addTask parse now text dl = .error .validationError ∧
    applyOp parse m (.add now text dl) = m := by
  constructor
  · simp [TaskManager.addTask, h]
  · simp [applyOp, TaskManager.addTask, h]

/-- Witness for C1 at `text = "   "` on a concrete manager. -/
theorem addTask_blank_validation_witness :
    jsTrim "   " = "" ∧
    (TaskManager.mk [] 1).addTask (fun _ => 0) 0 "   " JSDeadline.null =
      .error .validationError ∧
    applyOp (fun _ => 0) (TaskManager.mk [] 1) (.add 0 "   " JSDeadline.null) =
      TaskManager.mk [] 1 := by
  refine ⟨by decide, ?_⟩
  exact addTask_blank_validation (fun _ => 0) (TaskManager.mk [] 1) 0 "   "
    JSDeadline.null (by decide)

/-- Claim C2: on non-blank text, `addTask` succeeds and returns a task with
the trimmed text, `completed = false`, id equal to the old `nextId`;
`nextId` is incremented and the task is appended at the end. -/
theorem addTask_success_spec (parse : String → Int) (m : TaskManager)
    (now : Int) (text : String) (dl : JSDeadline) (h : jsTrim text ≠ "") :
    ∃ t m', m.addTask parse now text dl = .ok (t, m') ∧
      t.text = jsTrim text ∧ t.completed = false ∧ t.id = m.nextId ∧
      m'.nextId = m.nextId + 1 ∧ m'.tasks = m.tasks ++ [t] := by
  refine ⟨Task.make parse m.nextId (jsTrim text) now dl,
    { tasks := m.tasks ++ [Task.make parse m.nextId (jsTrim text) now dl],
      nextId := m.nextId + 1 }, ?_, rfl, rfl, rfl, rfl, rfl⟩
  simp [TaskManager.addTask, h]

/-- Witness for C2 at `text = " hello "` on the fresh manager. -/
theorem addTask_success_spec_witness :
    jsTrim " hello " ≠ "" ∧
    ∃ t m', (TaskManager.mk [] 1).addTask (fun _ => 0) 0 " hello "
        JSDeadline.null = .ok (t, m') ∧
      t.text = jsTrim " hello " ∧ t.completed = false ∧
      t.id = (TaskManager.mk [] 1).nextId ∧
      m'.nextId = (TaskManager.mk [] 1).nextId + 1 ∧
      m'.tasks = (TaskManager.mk [] 1).tasks ++ [t] := by
  refine ⟨by decide, ?_⟩
  exact addTask_success_spec (fun _ => 0) (TaskManager.mk [] 1) 0 " hello "
    JSDeadline.null (by decide)

/-- Claim C4: `isOverdue` holds exactly when a deadline exists, the task is
not completed and the current time is strictly past the deadline; a task
with no deadline, or a completed task, is never overdue. -/
theorem isOverdue_spec (t : Task) (now : Int) :
    (t.isOverdue now = true ↔
      ∃ d, t.deadline = some d ∧ t.completed = false ∧ d < now) ∧
    Task.isOverdue { t with deadline := none } now = false ∧
    Task.isOverdue { t with completed := true } now = false := by
  refine ⟨?_, rfl, ?_⟩
  · unfold Task.isOverdue
    cases hd : t.deadline with
    | none => simp
    | some d =>
      by_cases hc : t.completed
      · simp [hc]
      · simp [hc]
  · unfold Task.isOverdue
    cases t.deadline <;> simp

/-- Witness for C4: a task one minute past its deadline is overdue. -/
theorem isOverdue_spec_witness :
    (Task.mk 1 "a" false 0 (some (-60000))).isOverdue 0 = true :=
  ((isOverdue_spec (Task.mk 1 "a" false 0 (some (-60000))) 0).1).mpr
    ⟨-60000, rfl, rfl, by decide⟩

/-- Claim C3: `isDueSoon` holds exactly when a deadline exists, the task is
not completed and the remaining time is in (0 ms, 86400000 ms]; no task is
simultaneously overdue and due-soon. -/
theorem isDueSoon_spec (t : Task) (now : Int) :
    (t.isDueSoon now = true ↔
      ∃ d, t.deadline = some d ∧ t.completed = false ∧
        0 < d - now ∧ d - now ≤ 86400000) ∧
    (t.isOverdue now && t.isDueSoon now) = false := by
  constructor
  · rw [Task.isDueSoon_int]
    cases hd : t.deadline with
    | none => simp
    | some d =>
      by_cases hc : t.completed
      · simp [hc]
      · simp [hc]
  · rw [Task.isDueSoon_int]
    unfold Task.isOverdue
    cases t.deadline with
    | none => simp
    | some d =>
      by_cases hc : t.completed
      · simp [hc]
      · by_cases hlt : d < now
        · have hno : (decide (0 < d - now ∧ d - now ≤ 86400000)) = false :=
            decide_eq_false (by omega)
          simp only [hc, Bool.false_eq_true, if_false, hno, Bool.and_false]
        · simp [hc, hlt]

/-- Witness for C3: a task due in two hours is due-soon. -/
theorem isDueSoon_spec_witness :
    (Task.mk 1 "a" false 0 (some 7200000)).isDueSoon 0 = true :=
  ((isDueSoon_spec (Task.mk 1 "a" false 0 (some 7200000)) 0).1).mpr
    ⟨7200000, rfl, rfl, by decide, by decide⟩

/-- Claim C5: `getStats` returns the collection size, the number of
completed tasks, their difference, and the overdue / due-soon counts, all
computed from the current state. -/
theorem getStats_spec (m : TaskManager) (now : Int) :
    (m.getStats now).total = m.tasks.length ∧
    (m.getStats now).completed = m.tasks.countP (fun t => t.completed) ∧
    (m.getStats now).remaining =
      m.tasks.length - m.tasks.countP (fun t => t.completed) ∧
    (m.getStats now).remaining + (m.getStats now).completed =
      (m.getStats now).total ∧
    (m.getStats now).overdue = m.tasks.countP (fun t => t.isOverdue now) ∧
    (m.getStats now).dueSoon = m.tasks.countP (fun t => t.isDueSoon now) := by
  refine ⟨rfl, (List.countP_eq_length_filter _ m.tasks).symm, ?_, ?_,
    (List.countP_eq_length_filter _ m.tasks).symm,
    (List.countP_eq_length_filter _ m.tasks).symm⟩
  · rw [List.countP_eq_length_filter]
    rfl
  · exact Nat.sub_add_cancel (List.length_filter_le _ _)

/-- Claim C7: `clearCompleted` keeps exactly the uncompleted tasks in their
relative order, and a second call changes nothing. -/
theorem clearCompleted_spec (m : TaskManager) :
    m.clearCompleted.clearCompleted = m.clearCompleted ∧
    m.clearCompleted.tasks = m.tasks.filter (fun t => !t.completed) ∧
    List.Sublist m.clearCompleted.tasks m.tasks ∧
    m.clearCompleted.tasks.all (fun t => !t.completed) = true := by
  refine ⟨?_, rfl, List.filter_sublist _, ?_⟩
  · obtain ⟨tasks, nextId⟩ := m
    simp [TaskManager.clearCompleted, List.filter_filter]
  · rw [List.all_eq_true]
    intro t ht
    have ht' : t ∈ m.tasks.filter (fun u => !u.completed) := ht
    show (!t.completed) = true
    exact (List.mem_filter.mp ht').2

/-- If no task in the list has the given id, the first-match toggle leaves
the list unchanged. -/
theorem toggleFirst_not_mem (id : Nat) (l : List Task)
    (h : ∀ t ∈ l, t.id ≠ id) : toggleFirst id l = l := by
  induction l with
  | nil => rfl
  | cons t ts ih =>
    unfold toggleFirst
    rw [if_neg (h t (List.mem_cons_self t ts))]
    rw [ih fun t' ht' => h t' (List.mem_cons_of_mem t ht')]

/-- Claim C8: `deleteTask` and `toggleTask` on an absent id are no-ops, and
`deleteTask id` followed by `toggleTask id` never changes the post-delete
state (both functions are total, so nothing is raised). -/
theorem absent_id_noop (m : TaskManager) (id : Nat) :
    ((∀ t ∈ m.tasks, t.id ≠ id) →
      m.deleteTask id = m ∧ m.toggleTask id = m) ∧
    (m.deleteTask id).toggleTask id = m.deleteTask id := by
  obtain ⟨tasks, nextId⟩ := m
  constructor
  · intro h
    constructor
    · simp only [TaskManager.deleteTask, TaskManager.mk.injEq, and_true]
      rw [List.filter_eq_self]
      intro t ht
      simpa using h t ht
    · simp only [TaskManager.toggleTask, TaskManager.mk.injEq, and_true]
      exact toggleFirst_not_mem id tasks h
  · simp only [TaskManager.deleteTask, TaskManager.toggleTask,
      TaskManager.mk.injEq, and_true]
    apply toggleFirst_not_mem
    intro t ht
    simpa using List.of_mem_filter ht

/-- Witness for C8 with id 5 absent from a one-task manager. -/
theorem absent_id_noop_witness :
    (TaskManager.mk [Task.mk 1 "a" false 0 none] 2).deleteTask 5 =
      TaskManager.mk [Task.mk 1 "a" false 0 none] 2 ∧
    (TaskManager.mk [Task.mk 1 "a" false 0 none] 2).toggleTask 5 =
      TaskManager.mk [Task.mk 1 "a" false 0 none] 2 :=
  (absent_id_noop (TaskManager.mk [Task.mk 1 "a" false 0 none] 2) 5).1
    (by decide)

/-- The manager invariant: task ids are strictly increasing along the list
and all of them are below `nextId`. -/
def Inv (m : TaskManager) : Prop :=
  (m.tasks.map Task.id).Pairwise (· < ·) ∧
  ∀ i ∈ m.tasks.map Task.id, i < m.nextId

/-- Toggling the first match does not change the id sequence. -/
theorem toggleFirst_map_id (id : Nat) (l : List Task) :
    (toggleFirst id l).map Task.id = l.map Task.id := by
  induction l with
  | nil => rfl
  | cons t ts ih =>
    unfold toggleFirst
    by_cases h : t.id = id
    · simp [h, Task.toggle]
    · simp [h, ih]

/-- Every operation preserves the manager invariant. -/
theorem inv_applyOp (parse : String → Int) (op : Op) (m : TaskManager)
    (hm : Inv m) : Inv (applyOp parse m op) := by
  obtain ⟨hsort, hbound⟩ := hm
  cases op with
  | add now text dl =>
    simp only [applyOp, TaskManager.addTask]
    by_cases ht : jsTrim text = ""
    · simp only [ht, if_pos rfl]
      exact ⟨hsort, hbound⟩
    · simp only [if_neg ht]
      constructor
      · rw [List.map_append, List.pairwise_append]
        refine ⟨hsort, List.pairwise_singleton _ _, ?_⟩
        intro a ha b hb
        rw [List.mem_map] at hb
        obtain ⟨u, hu, hb⟩ := hb
        rw [List.mem_singleton] at hu
        subst hu
        subst hb
        exact hbound a ha
      · intro i hi
        rw [List.map_append, List.mem_append] at hi
        rcases hi with hi | hi
        · exact Nat.lt_trans (hbound i hi) (Nat.lt_succ_self _)
        · rw [List.mem_map] at hi
          obtain ⟨u, hu, hieq⟩ := hi
          rw [List.mem_singleton] at hu
          subst hu
          subst hieq
          exact Nat.lt_succ_self _
  | delete id =>
    refine ⟨List.Pairwise.sublist (List.Sublist.map Task.id
      (List.filter_sublist _)) hsort, ?_⟩
    intro i hi
    exact hbound i (List.Sublist.subset
      (List.Sublist.map Task.id (List.filter_sublist _)) hi)
  | toggle id =>
    refine ⟨?_, ?_⟩
    · show ((toggleFirst id m.tasks).map Task.id).Pairwise (· < ·)
      rw [toggleFirst_map_id]
      exact hsort
    · show ∀ i ∈ (toggleFirst id m.tasks).map Task.id, i < m.nextId
      rw [toggleFirst_map_id]
      exact hbound
  | clear =>
    refine ⟨List.Pairwise.sublist (List.Sublist.map Task.id
      (List.filter_sublist _)) hsort, ?_⟩
    intro i hi
    exact hbound i (List.Sublist.subset
      (List.Sublist.map Task.id (List.filter_sublist _)) hi)

/-- Running any operation sequence preserves the invariant. -/
theorem inv_foldl (parse : String → Int) :
    ∀ (ops : List Op) (m : TaskManager), Inv m →
      Inv (ops.foldl (applyOp parse) m)
  | [], _, h => h
  | op :: ops, m, h => inv_foldl parse ops _ (inv_applyOp parse op m h)

/-- The fresh manager satisfies the invariant. -/
theorem inv_init : Inv TaskManager.init :=
  ⟨List.Pairwise.nil, by intro i hi; simp [TaskManager.init] at hi⟩

/-- `nextId` advances by exactly the number of successful additions. -/
theorem nextId_foldl (parse : String → Int) :
    ∀ (ops : List Op) (m : TaskManager),
      (ops.foldl (applyOp parse) m).nextId = m.nextId + successfulAdds ops
  | [], _ => rfl
  | .add now text dl :: ops, m => by
    rw [List.foldl_cons, nextId_foldl parse ops]
    simp only [applyOp, TaskManager.addTask, successfulAdds]
    by_cases ht : jsTrim text = ""
    · simp [ht]
    · simp only [if_neg ht]
      omega
  | .delete id :: ops, m => by
    rw [List.foldl_cons, nextId_foldl parse ops]
    rfl
  | .toggle id :: ops, m => by
    rw [List.foldl_cons, nextId_foldl parse ops]
    rfl
  | .clear :: ops, m => by
    rw [List.foldl_cons, nextId_foldl parse ops]
    rfl

/-- Claim C6: starting from the fresh manager, `nextId` is 1 plus the
number of successful additions so far (so the k-th successful `addTask`
returns id k, increasing by exactly 1 per success regardless of interleaved
deletions); the next successful `addTask` returns the current `nextId` and
advances the counter by 1; and all ids in the collection are strictly
increasing, hence distinct and never reused. -/
theorem ids_strictly_monotone (parse : String → Int) (ops : List Op) :
    (runOps parse ops).nextId = 1 + successfulAdds ops ∧
    (∀ (now : Int) (text : String) (dl : JSDeadline) (t : Task)
        (m' : TaskManager),
      (runOps parse ops).addTask parse now text dl = .ok (t, m') →
        t.id = (runOps parse ops).nextId ∧
        m'.nextId = (runOps parse ops).nextId + 1) ∧
    ((runOps parse ops).tasks.map Task.id).Pairwise (· < ·) ∧
    ((runOps parse ops).tasks.map Task.id).Nodup := by
  have hinv := inv_foldl parse ops TaskManager.init inv_init
  refine ⟨?_, ?_, hinv.1, List.Pairwise.imp Nat.ne_of_lt hinv.1⟩
  · rw [runOps, nextId_foldl parse ops]
    rfl
  · intro now text dl t m' h
    rw [TaskManager.addTask] at h
    by_cases ht : jsTrim text = ""
    · rw [if_pos ht] at h
      exact absurd h (by simp)
    · rw [if_neg ht] at h
      rw [Except.ok.injEq, Prod.mk.injEq] at h
      obtain ⟨h1, h2⟩ := h
      subst h1
      subst h2
      exact ⟨rfl, rfl⟩

/-- Witness for C6: the first successful addition on the fresh manager
returns id 1 and moves `nextId` to 2. -/
theorem ids_strictly_monotone_witness :
    (Task.mk 1 "a" false 0 none).id = (runOps (fun _ => 0) []).nextId ∧
    (TaskManager.mk [Task.mk 1 "a" false 0 none] 2).nextId =
      (runOps (fun _ => 0) []).nextId + 1 :=
  (ids_strictly_monotone (fun _ => 0) []).2.1 0 "a" JSDeadline.null
    (Task.mk 1 "a" false 0 none)
    (TaskManager.mk [Task.mk 1 "a" false 0 none] 2) rfl

/-- Claim C9: after an arbitrary operation sequence from the fresh manager,
`getAllTasks` returns the current task sequence and its ids are strictly
increasing, i.e. the tasks appear in creation order.  The returned list is
a fresh value (`[...this.tasks]`), so in this value-semantics model later
mutations of the manager cannot alter the ordering or membership of a
snapshot taken earlier. -/
theorem getAllTasks_creation_order (parse : String → Int) (ops : List Op) :
    (runOps parse ops).getAllTasks = (runOps parse ops).tasks ∧
    ((runOps parse ops).getAllTasks.map Task.id).Pairwise (· < ·) :=
  ⟨rfl, (inv_foldl parse ops TaskManager.init inv_init).1⟩

/-- Claim C10: `addTask` with a falsy deadline argument (`null`, `""`, `0`)
yields a task with no deadline, which is never overdue nor due-soon; a
truthy argument is parsed into a timestamp. -/
theorem addTask_falsy_deadline (parse : String → Int) (m : TaskManager)
    (now : Int) (text : String) (dl : JSDeadline) (t : Task)
    (m' : TaskManager) (h : m.addTask parse now text dl = .ok (t, m')) :
    (dl.truthy = false →
      t.deadline = none ∧
      ∀ n2 : Int, t.isOverdue n2 = false ∧ t.isDueSoon n2 = false) ∧
    (dl.truthy = true → t.deadline = some (dl.toTimestamp parse)) ∧
    JSDeadline.null.truthy = false ∧
    (JSDeadline.str "").truthy = false ∧
    (JSDeadline.num 0).truthy = false := by
  rw [TaskManager.addTask] at h
  by_cases ht : jsTrim text = ""
  · rw [if_pos ht] at h
    exact absurd h (by simp)
  · rw [if_neg ht] at h
    rw [Except.ok.injEq, Prod.mk.injEq] at h
    obtain ⟨h1, _⟩ := h
    subst h1
    refine ⟨?_, ?_, rfl, by decide, by decide⟩
    · intro hf
      have hdl : (Task.make parse m.nextId (jsTrim text) now dl).deadline =
          none := by
        simp [Task.make, hf]
      refine ⟨hdl, fun n2 => ⟨?_, ?_⟩⟩
      · rw [Task.isOverdue, hdl]
      · rw [Task.isDueSoon, hdl]
    · intro htr
      simp [Task.make, htr]

/-- Witness for C10: adding with the `null` deadline argument gives a task
with no deadline that is neither overdue nor due-soon. -/
theorem addTask_falsy_deadline_witness :
    (Task.mk 1 "a" false 0 none).deadline = none ∧
    (Task.mk 1 "a" false 0 none).isOverdue 999 = false ∧
    (Task.mk 1 "a" false 0 none).isDueSoon 999 = false := by
  have h := (addTask_falsy_deadline (fun _ => 7) TaskManager.init 0 "a"
    JSDeadline.null (Task.mk 1 "a" false 0 none)
    (TaskManager.mk [Task.mk 1 "a" false 0 none] 2) rfl).1 rfl
  exact ⟨h.1, (h.2 999).1, (h.2 999).2⟩

end Todo
